import Mathlib

/-!
# CaptureScreenshot: the bitmap encoder of `src/BitmapMain.cpp`

A shallow embedding of `SaveCapturedBitmap` (lines 109-191) and of the driver
loop of `main` (lines 36-40).

* Machine integers are mathematical integers with explicit wrap-around:
  `LONG`/`int` are 32-bit two's complement (`wrapLONG`, the result of the
  x86 multiply and add instructions the Windows compilers emit), `DWORD` is
  32-bit unsigned (`toDWORD`), `WORD` is 16-bit unsigned.  Signed `/`
  truncates towards zero (`Int.tdiv`).  `dwBmpSize_checked` evaluates the
  same expression and reports any signed overflow instead of wrapping.
* The answers of the operating system during one call (`GetObject`,
  `GetCursorPos`, the clock, `GetDIBits`, `CreateFileA`, `WriteFile`) and the
  indeterminate contents of the two header locals before their fields are
  assigned are collected in `Env`.
* Structures are written to the file as their little-endian memory image.
-/

namespace CaptureScreenshot

set_option linter.unusedVariables false

/-! ## Machine integers -/

/-- Two's-complement reduction of an integer to the 32-bit signed range of
`LONG` and `int`. -/
def wrapLONG (x : Int) : Int := (x + 2147483648) % 4294967296 - 2147483648

/-- Conversion to `DWORD` (32-bit unsigned): reduction modulo `2^32`. -/
def toDWORD (x : Int) : Nat := (x % 4294967296).toNat

/-- The value is representable in a `LONG` without wrap-around. -/
def checkedLONG (x : Int) : Option Int :=
  if -2147483648 ≤ x ∧ x ≤ 2147483647 then some x else none

/-! ## Windows structures (the fields the program touches) -/

/-- The `BITMAP` record filled by `GetObject` (line 116); only `bmWidth` and
`bmHeight` (both `LONG`) are read by the program. -/
structure BITMAP where
  bmWidth : Int
  bmHeight : Int
  deriving DecidableEq

/-- A `POINT` as filled by `GetCursorPos` (line 140); both fields are `LONG`. -/
structure POINT where
  x : Int
  y : Int
  deriving DecidableEq

/-- The `BITMAPINFOHEADER` local `infoHdr` (line 112). -/
structure BITMAPINFOHEADER where
  biSize : Nat
  biWidth : Int
  biHeight : Int
  biPlanes : Nat
  biBitCount : Nat
  biCompression : Nat
  biSizeImage : Nat
  biXPelsPerMeter : Int
  biYPelsPerMeter : Int
  biClrUsed : Nat
  biClrImportant : Nat
  deriving DecidableEq

/-- The `BITMAPFILEHEADER` local `bmpFileHdr` (line 169). -/
structure BITMAPFILEHEADER where
  bfType : Nat
  bfSize : Nat
  bfReserved1 : Nat
  bfReserved2 : Nat
  bfOffBits : Nat
  deriving DecidableEq

/-- Modelled from the spec: `wingdi.h` is not part of the sources; the file
header occupies 14 bytes ("14-byte file header"). -/
def sizeof_BITMAPFILEHEADER : Nat := 14

/-- Modelled from the spec: `wingdi.h` is not part of the sources; the info
header occupies 40 bytes ("40-byte info header"). -/
def sizeof_BITMAPINFOHEADER : Nat := 40

/-- Modelled from the spec: the `BI_RGB` constant of `wingdi.h`
("biCompression = 0", compression mode none). -/
def BI_RGB : Nat := 0

/-! ## Little-endian memory images -/

/-- The two bytes of a `WORD`, least significant first. -/
def le16 (v : Nat) : List Nat := [v % 256, v / 256 % 256]

/-- The four bytes of a `DWORD`, least significant first. -/
def le32 (v : Nat) : List Nat :=
  [v % 256, v / 256 % 256, v / 65536 % 256, v / 16777216 % 256]

/-- Memory image of a `BITMAPFILEHEADER` (2-byte packing, 14 bytes):
`bfType` at 0, `bfSize` at 2, `bfReserved1` at 6, `bfReserved2` at 8,
`bfOffBits` at 10. -/
def BITMAPFILEHEADER.bytes (h : BITMAPFILEHEADER) : List Nat :=
  le16 h.bfType ++ le32 h.bfSize ++ le16 h.bfReserved1 ++ le16 h.bfReserved2 ++
    le32 h.bfOffBits

/-- Memory image of a `BITMAPINFOHEADER` (40 bytes): `biSize` at 0, `biWidth`
at 4, `biHeight` at 8, `biPlanes` at 12, `biBitCount` at 14, `biCompression`
at 16, `biSizeImage` at 20, the resolutions at 24 and 28, `biClrUsed` at 32,
`biClrImportant` at 36. -/
def BITMAPINFOHEADER.bytes (h : BITMAPINFOHEADER) : List Nat :=
  le32 h.biSize ++ le32 (toDWORD h.biWidth) ++ le32 (toDWORD h.biHeight) ++
    le16 h.biPlanes ++ le16 h.biBitCount ++ le32 h.biCompression ++
    le32 h.biSizeImage ++ le32 (toDWORD h.biXPelsPerMeter) ++
    le32 (toDWORD h.biYPelsPerMeter) ++ le32 h.biClrUsed ++ le32 h.biClrImportant

/-- Reads a little-endian `WORD` at byte offset `off`. -/
def readLE16 (bs : List Nat) (off : Nat) : Nat :=
  bs.getD off 0 + 256 * bs.getD (off + 1) 0

/-- Reads a little-endian `DWORD` at byte offset `off`. -/
def readLE32 (bs : List Nat) (off : Nat) : Nat :=
  bs.getD off 0 + 256 * bs.getD (off + 1) 0 + 65536 * bs.getD (off + 2) 0 +
    16777216 * bs.getD (off + 3) 0

/-! ## The environment of one call -/

/-- What the operating system and the stack hand to one call of
`SaveCapturedBitmap`. -/
structure Env where
  /-- The record `GetObject` stores for the bitmap handle (line 116). -/
  bitmap : BITMAP
  /-- The cursor position `GetCursorPos` stores (line 140). -/
  mousePt : POINT
  /-- Milliseconds since the epoch read from the clock (line 144). -/
  tnow : Int
  /-- The bytes `GetDIBits` copies to the start of `lpBitmap` (line 147). -/
  dibits : List Nat
  /-- The indeterminate contents of the local `infoHdr` at its declaration
  (line 112, no initialiser). -/
  infoHdr0 : BITMAPINFOHEADER
  /-- The indeterminate contents of the local `bmpFileHdr` at its declaration
  (line 169, no initialiser). -/
  bmpFileHdr0 : BITMAPFILEHEADER
  /-- Whether `CreateFileA` returns a valid handle (line 157). -/
  createOk : Bool
  /-- Whether the first `WriteFile` (file header, line 181) writes its bytes. -/
  write1Ok : Bool
  /-- Whether the second `WriteFile` (info header, line 182) writes its bytes. -/
  write2Ok : Bool
  /-- Whether the third `WriteFile` (pixel buffer, line 183) writes its bytes. -/
  write3Ok : Bool

/-! ## `SaveCapturedBitmap`, local by local -/

/-- The local `infoHdr` after lines 117-127: every one of the eleven fields is
assigned. -/
def infoHdr (env : Env) : BITMAPINFOHEADER :=
  { env.infoHdr0 with
    biSize := sizeof_BITMAPINFOHEADER
    biWidth := env.bitmap.bmWidth
    biHeight := env.bitmap.bmHeight
    biPlanes := 1
    biBitCount := 24
    biCompression := BI_RGB
    biSizeImage := 0
    biXPelsPerMeter := 0
    biYPelsPerMeter := 0
    biClrUsed := 0
    biClrImportant := 0 }

/-- The sub-expression `((bitmap.bmWidth * infoHdr.biBitCount + 31) / 32) * 4`
of line 130, evaluated in `LONG` arithmetic. -/
def rowBytes (env : Env) : Int :=
  wrapLONG
    (wrapLONG
        (Int.tdiv
          (wrapLONG (wrapLONG (env.bitmap.bmWidth * ((infoHdr env).biBitCount : Int)) + 31))
          32) *
      4)

/-- The local `dwBmpSize` (lines 129-130): the `LONG` product converted to
`DWORD`. -/
def dwBmpSize (env : Env) : Nat :=
  toDWORD (wrapLONG (rowBytes env * env.bitmap.bmHeight))

/-- Line 130 evaluated with overflow detection: `none` as soon as one of the
five signed 32-bit intermediate results is not representable. -/
def dwBmpSize_checked (env : Env) : Option Nat :=
  (checkedLONG (env.bitmap.bmWidth * ((infoHdr env).biBitCount : Int))).bind fun a =>
  (checkedLONG (a + 31)).bind fun b =>
  (checkedLONG (Int.tdiv b 32)).bind fun c =>
  (checkedLONG (c * 4)).bind fun d =>
  (checkedLONG (d * env.bitmap.bmHeight)).bind fun e =>
  some (toDWORD e)

/-- The buffer `lpBitmap` when it is written (lines 134-150): `GlobalAlloc`
with `GHND` gives `dwBmpSize` zero bytes, `GetDIBits` overwrites its start. -/
def lpBitmap (env : Env) : List Nat :=
  env.dibits.take (dwBmpSize env) ++
    List.replicate (dwBmpSize env - env.dibits.length) 0

/-- `std::to_string` of the C++ standard library on a signed integer (`int`,
`long`, `long long`): the decimal digits, most significant first, with a
leading minus sign for a negative value. -/
def to_string (v : Int) : String := toString v

/-- The local `str_filename` (line 154). -/
def str_filename (env : Env) (idx : Int) : String :=
  to_string idx ++ "+" ++ to_string env.mousePt.x ++ "_" ++ to_string env.mousePt.y ++
    "_" ++ to_string env.tnow ++ ".bmp"

/-- The local `dwSizeofDIB` (lines 165-166), stored in a `DWORD`. -/
def dwSizeofDIB (env : Env) : Nat :=
  (dwBmpSize env + sizeof_BITMAPFILEHEADER + sizeof_BITMAPINFOHEADER) % 4294967296

/-- The local `bmpFileHdr` when it is written: declared without initialiser
(line 169), then `bfOffBits`, `bfSize` and `bfType` are assigned (lines
170-176). -/
def bmpFileHdr (env : Env) : BITMAPFILEHEADER :=
  { env.bmpFileHdr0 with
    bfOffBits := (sizeof_BITMAPFILEHEADER + sizeof_BITMAPINFOHEADER) % 4294967296
    bfSize := dwSizeofDIB env
    bfType := 0x4D42 }

/-- The bytes one `WriteFile` call appends: the first `n` bytes at `buf` when
the call succeeds, nothing otherwise. -/
def WriteFile (ok : Bool) (buf : List Nat) (n : Nat) : List Nat :=
  if ok then buf.take n else []

/-- A file on disk: its name and its content. -/
structure File where
  name : String
  content : List Nat
  deriving DecidableEq

/-- The file `SaveCapturedBitmap` leaves on disk (lines 109-191), `none` when
`CreateFileA` fails.  The four handle parameters only reach the system calls
answered by `env`; `mWidth` and `mHeight` are parameters the body never
reads. -/
def SaveCapturedBitmap (env : Env) (mWidth mHeight idx : Int) : Option File :=
  if env.createOk then
    some
      { name := str_filename env idx
        content :=
          WriteFile env.write1Ok (bmpFileHdr env).bytes sizeof_BITMAPFILEHEADER ++
            WriteFile env.write2Ok (infoHdr env).bytes sizeof_BITMAPINFOHEADER ++
            WriteFile env.write3Ok (lpBitmap env) (dwBmpSize env) }
  else none

/-- The frame indices the loop of `main` passes to `CaptureImage`
(lines 37-40). -/
def main_indices : List Int := (List.range 30).map fun i => (i : Int)

/-! ## The formulas of the specification -/

/-- The stride formula in the words of the specification:
`floor((W*24 + 31)/32) * 4`. -/
def padded_row_bytes (W : Nat) : Nat := (W * 24 + 31) / 32 * 4

/-- The buffer size in the words of the specification:
`padded_row_bytes(W) * H`. -/
def pixelBufferSize (W H : Nat) : Nat := padded_row_bytes W * H

/-- The digit values printed for a natural number, most significant first. -/
def decDigits (n : Nat) : List Nat := if n = 0 then [0] else (Nat.digits 10 n).reverse

/-- The decimal numeral of an integer in the words of the specification: an
optional minus sign followed by the base-10 digits, most significant first. -/
def decimal (v : Int) : String :=
  String.mk ((if v < 0 then ['-'] else []) ++ (decDigits v.natAbs).map fun d => Char.ofNat (48 + d))

/-! ## Sample environments -/

/-- The width `main` passes (line 30). -/
def main_width : Int := 1920

/-- The height `main` passes (line 31). -/
def main_height : Int := 1080

/-- A call whose snapshot is `W` by `H`, with the cursor at (100, 200), the
clock at 1234567890123 ms, zeroed stack slots and every system call
succeeding; `bits` is what `GetDIBits` copies. -/
def frame (W H : Int) (bits : List Nat) : Env :=
  { bitmap := ⟨W, H⟩
    mousePt := ⟨100, 200⟩
    tnow := 1234567890123
    dibits := bits
    infoHdr0 := ⟨0, 0, 0, 0, 0, 0, 0, 0, 0, 0, 0⟩
    bmpFileHdr0 := ⟨0, 0, 0, 0, 0⟩
    createOk := true
    write1Ok := true
    write2Ok := true
    write3Ok := true }

/-- The device-independent bits of a solid red 2 by 2 snapshot: two rows of
two blue-green-red triples, each row padded to 8 bytes. -/
def redBits : List Nat := [0, 0, 255, 0, 0, 255, 0, 0, 0, 0, 255, 0, 0, 255, 0, 0]

/-- The same 2 by 2 call when the stack slots of the two header locals hold
the fill byte `0xCC` that debug builds store in uninitialised locals. -/
def debugFillFrame : Env :=
  { frame 2 2 redBits with
    infoHdr0 := ⟨0xCCCCCCCC, 0, 0, 0xCCCC, 0xCCCC, 0xCCCCCCCC, 0xCCCCCCCC, 0, 0, 0xCCCCCCCC,
      0xCCCCCCCC⟩
    bmpFileHdr0 := ⟨0xCCCC, 0xCCCCCCCC, 0xCCCC, 0xCCCC, 0xCCCCCCCC⟩ }

/-- A later call on the same 2 by 2 snapshot: the clock has advanced, the
cursor has moved, and the stack slot of `bmpFileHdr` holds a leftover byte. -/
def laterFrame : Env :=
  { frame 2 2 redBits with
    mousePt := ⟨101, 200⟩
    tnow := 1234567890456
    bmpFileHdr0 := ⟨0, 0, 1, 0, 0⟩ }

/-! ## Arithmetic of the machine integers -/

theorem wrapLONG_eq_self {x : Int} (h1 : -2147483648 ≤ x) (h2 : x ≤ 2147483647) :
    wrapLONG x = x := by
  unfold wrapLONG; omega

theorem toDWORD_wrapLONG (x : Int) : toDWORD (wrapLONG x) = toDWORD x := by
  unfold toDWORD wrapLONG; omega

theorem toDWORD_natCast {n : Nat} (h : n ≤ 4294967295) : toDWORD (n : Int) = n := by
  unfold toDWORD; omega

theorem rowBytes_eq (env : Env) (W : Nat) (hb : env.bitmap.bmWidth = (W : Int))
    (h : W * 24 + 31 ≤ 2147483647) : rowBytes env = (padded_row_bytes W : Nat) := by
  have hdiv : Int.tdiv ((W : Int) * 24 + 31) 32 = ((W : Int) * 24 + 31) / 32 :=
    Int.tdiv_eq_ediv (by omega) (by omega)
  unfold rowBytes padded_row_bytes
  simp only [infoHdr, hb]
  push_cast
  rw [wrapLONG_eq_self (x := (W : Int) * 24) (by omega) (by omega)]
  rw [wrapLONG_eq_self (x := (W : Int) * 24 + 31) (by omega) (by omega)]
  rw [hdiv]
  rw [wrapLONG_eq_self (x := ((W : Int) * 24 + 31) / 32) (by omega) (by omega)]
  rw [wrapLONG_eq_self (x := ((W : Int) * 24 + 31) / 32 * 4) (by omega) (by omega)]

theorem dwBmpSize_eq (env : Env) (W H : Nat) (hb : env.bitmap = ⟨(W : Int), (H : Int)⟩)
    (h1 : W * 24 + 31 ≤ 2147483647) (h2 : padded_row_bytes W * H ≤ 4294967295) :
    dwBmpSize env = padded_row_bytes W * H := by
  have hw : env.bitmap.bmWidth = (W : Int) := by rw [hb]
  have hh : env.bitmap.bmHeight = (H : Int) := by rw [hb]
  unfold dwBmpSize
  rw [toDWORD_wrapLONG, rowBytes_eq env W hw h1, hh, ← Nat.cast_mul, toDWORD_natCast h2]

/-! ## Decimal printing -/

theorem digitChar_inj10 {a b : Nat} (ha : a < 10) (hb : b < 10)
    (h : Nat.digitChar a = Nat.digitChar b) : a = b := by
  interval_cases a <;> interval_cases b <;> first | rfl | (exact absurd h (by decide))

theorem digitChar_ne_of_lt10 {a : Nat} (ha : a < 10) :
    Nat.digitChar a ≠ '+' ∧ Nat.digitChar a ≠ '-' := by
  interval_cases a <;> decide

theorem toDigitsCore_eq_digits (fuel : Nat) :
    ∀ (n : Nat) (ds : List Char), n < fuel → 0 < n →
      Nat.toDigitsCore 10 fuel n ds = ((Nat.digits 10 n).reverse.map Nat.digitChar) ++ ds := by
  induction fuel with
  | zero => intro n ds h; omega
  | succ fuel ih =>
    intro n ds h hn
    rw [Nat.digits_def' (by decide) hn]
    by_cases hq : n / 10 = 0
    · simp [Nat.toDigitsCore, hq]
    · have hlt : n / 10 < fuel := by omega
      simp [Nat.toDigitsCore, hq, ih (n / 10) _ hlt (by omega)]

theorem toDigits_eq (n : Nat) : Nat.toDigits 10 n = (decDigits n).map Nat.digitChar := by
  unfold decDigits Nat.toDigits
  by_cases h : n = 0
  · subst h; simp [Nat.toDigitsCore]
  · rw [toDigitsCore_eq_digits (n + 1) n [] (by omega) (by omega)]; simp [h]

theorem decDigits_lt (n d : Nat) (h : d ∈ decDigits n) : d < 10 := by
  unfold decDigits at h
  split at h
  · simp at h; omega
  · exact Nat.digits_lt_base (by decide) (List.mem_reverse.mp h)

theorem decDigits_injective {n m : Nat} (h : decDigits n = decDigits m) : n = m := by
  unfold decDigits at h
  by_cases hn : n = 0 <;> by_cases hm : m = 0
  · omega
  · simp only [hn, hm, if_true, if_false] at h
    have h2 : Nat.digits 10 m = [0] := by
      have := congrArg List.reverse h; simpa using this.symm
    have := Nat.getLast_digit_ne_zero 10 hm
    simp [h2] at this
  · simp only [hn, hm, if_true, if_false] at h
    have h2 : Nat.digits 10 n = [0] := by
      have := congrArg List.reverse h; simpa using this
    have := Nat.getLast_digit_ne_zero 10 hn
    simp [h2] at this
  · simp only [hn, hm, if_false] at h
    exact Nat.digits_inj_iff.mp (List.reverse_injective h)

theorem map_digitChar_inj : ∀ (l1 l2 : List Nat), (∀ d ∈ l1, d < 10) → (∀ d ∈ l2, d < 10) →
    l1.map Nat.digitChar = l2.map Nat.digitChar → l1 = l2
  | [], [], _, _, _ => rfl
  | [], _ :: _, _, _, h => by simp at h
  | _ :: _, [], _, _, h => by simp at h
  | a :: l1, b :: l2, h1, h2, h => by
    simp only [List.map_cons, List.cons.injEq] at h
    have hab := digitChar_inj10 (h1 a (by simp)) (h2 b (by simp)) h.1
    have := map_digitChar_inj l1 l2 (fun d hd => h1 d (by simp [hd])) (fun d hd => h2 d (by simp [hd])) h.2
    rw [hab, this]

theorem toDigits_injective {n m : Nat} (h : Nat.toDigits 10 n = Nat.toDigits 10 m) : n = m := by
  rw [toDigits_eq, toDigits_eq] at h
  exact decDigits_injective (map_digitChar_inj _ _ (decDigits_lt n) (decDigits_lt m) h)

theorem toDigits_mem {n : Nat} {c : Char} (h : c ∈ Nat.toDigits 10 n) : c ≠ '+' ∧ c ≠ '-' := by
  rw [toDigits_eq] at h
  obtain ⟨d, hd, rfl⟩ := List.mem_map.mp h
  exact digitChar_ne_of_lt10 (decDigits_lt n d hd)

theorem toString_int_data (v : Int) :
    (toString v).data =
      if v < 0 then '-' :: Nat.toDigits 10 v.natAbs else Nat.toDigits 10 v.toNat := by
  cases v with
  | ofNat m =>
    have hm : ¬ ((m : Int) < 0) := by omega
    simp [toString, Nat.repr, List.asString, hm]
  | negSucc m =>
    have : Int.negSucc m < 0 := Int.negSucc_lt_zero m
    simp [toString, Nat.repr, List.asString, this, Int.natAbs]

theorem toString_int_no_plus (v : Int) : '+' ∉ (toString v).data := by
  rw [toString_int_data]
  intro h
  split at h
  · rcases List.mem_cons.mp h with h | h
    · exact absurd h (by decide)
    · exact (toDigits_mem h).1 rfl
  · exact (toDigits_mem h).1 rfl

theorem toString_int_injective {a b : Int} (h : toString a = toString b) : a = b := by
  have hd : (toString a).data = (toString b).data := by rw [h]
  rw [toString_int_data, toString_int_data] at hd
  by_cases ha : a < 0 <;> by_cases hb : b < 0
  · simp only [ha, hb, if_true, List.cons.injEq, true_and] at hd
    have := toDigits_injective hd
    omega
  · simp only [ha, hb, if_true, if_false] at hd
    have hmem : '-' ∈ Nat.toDigits 10 b.toNat := by rw [← hd]; simp
    exact absurd rfl (toDigits_mem hmem).2
  · simp only [ha, hb, if_true, if_false] at hd
    have hmem : '-' ∈ Nat.toDigits 10 a.toNat := by rw [hd]; simp
    exact absurd rfl (toDigits_mem hmem).2
  · simp only [ha, hb, if_false] at hd
    have := toDigits_injective hd
    omega

theorem append_sep_inj {sep : Char} : ∀ (a b r s : List Char), sep ∉ a → sep ∉ b →
    a ++ sep :: r = b ++ sep :: s → a = b
  | [], [], _, _, _, _, _ => rfl
  | [], y :: b, r, s, _, hb, h => by
    simp only [List.nil_append, List.cons_append, List.cons.injEq] at h
    exact absurd (List.mem_cons_self _ _) (h.1 ▸ hb)
  | x :: a, [], r, s, ha, _, h => by
    simp only [List.nil_append, List.cons_append, List.cons.injEq] at h
    exact absurd (List.mem_cons_self _ _) (h.1 ▸ ha)
  | x :: a, y :: b, r, s, ha, hb, h => by
    simp only [List.cons_append, List.cons.injEq] at h
    have := append_sep_inj a b r s (fun hm => ha (List.mem_cons_of_mem _ hm))
      (fun hm => hb (List.mem_cons_of_mem _ hm)) h.2
    rw [h.1, this]

/-! ## Bytes of the written file -/

theorem fileHdr_bytes_length (h : BITMAPFILEHEADER) : h.bytes.length = 14 := by
  simp [BITMAPFILEHEADER.bytes, le16, le32]

theorem infoHdr_bytes_length (h : BITMAPINFOHEADER) : h.bytes.length = 40 := by
  simp [BITMAPINFOHEADER.bytes, le16, le32]

theorem lpBitmap_length (env : Env) : (lpBitmap env).length = dwBmpSize env := by
  simp [lpBitmap, List.length_take]; omega

theorem content_eq (env : Env) (mWidth mHeight idx : Int)
    (hc : env.createOk = true) (h1 : env.write1Ok = true) (h2 : env.write2Ok = true)
    (h3 : env.write3Ok = true) :
    SaveCapturedBitmap env mWidth mHeight idx =
      some ⟨str_filename env idx, (bmpFileHdr env).bytes ++ (infoHdr env).bytes ++ lpBitmap env⟩ := by
  have e1 : (bmpFileHdr env).bytes.take 14 = (bmpFileHdr env).bytes :=
    List.take_of_length_le (by rw [fileHdr_bytes_length])
  have e2 : (infoHdr env).bytes.take 40 = (infoHdr env).bytes :=
    List.take_of_length_le (by rw [infoHdr_bytes_length])
  have e3 : (lpBitmap env).take (dwBmpSize env) = lpBitmap env :=
    List.take_of_length_le (by rw [lpBitmap_length])
  simp [SaveCapturedBitmap, WriteFile, hc, h1, h2, h3, sizeof_BITMAPFILEHEADER,
    sizeof_BITMAPINFOHEADER, e1, e2, e3]


theorem readLE16_skip16 (v : Nat) (l : List Nat) (k : Nat) :
    readLE16 (le16 v ++ l) (k + 2) = readLE16 l k := by
  simp [readLE16, le16]

theorem readLE16_skip32 (v : Nat) (l : List Nat) (k : Nat) :
    readLE16 (le32 v ++ l) (k + 4) = readLE16 l k := by
  simp [readLE16, le32]

theorem readLE32_skip16 (v : Nat) (l : List Nat) (k : Nat) :
    readLE32 (le16 v ++ l) (k + 2) = readLE32 l k := by
  simp [readLE32, le16]

theorem readLE32_skip32 (v : Nat) (l : List Nat) (k : Nat) :
    readLE32 (le32 v ++ l) (k + 4) = readLE32 l k := by
  simp [readLE32, le32]

theorem readLE16_here (v : Nat) (l : List Nat) (h : v ≤ 65535) :
    readLE16 (le16 v ++ l) 0 = v := by
  simp [readLE16, le16]; omega

theorem readLE32_here (v : Nat) (l : List Nat) (h : v ≤ 4294967295) :
    readLE32 (le32 v ++ l) 0 = v := by
  simp [readLE32, le32]; omega



theorem content_two_headers (env : Env) (mWidth mHeight idx : Int)
    (hc : env.createOk = true) (h1 : env.write1Ok = true) (h2 : env.write2Ok = true) :
    SaveCapturedBitmap env mWidth mHeight idx =
      some ⟨str_filename env idx, (bmpFileHdr env).bytes ++ (infoHdr env).bytes ++
        WriteFile env.write3Ok (lpBitmap env) (dwBmpSize env)⟩ := by
  have e1 : (bmpFileHdr env).bytes.take 14 = (bmpFileHdr env).bytes :=
    List.take_of_length_le (by rw [fileHdr_bytes_length])
  have e2 : (infoHdr env).bytes.take 40 = (infoHdr env).bytes :=
    List.take_of_length_le (by rw [infoHdr_bytes_length])
  simp [SaveCapturedBitmap, WriteFile, hc, h1, h2, sizeof_BITMAPFILEHEADER,
    sizeof_BITMAPINFOHEADER, e1, e2]

theorem bfSize_eq (env : Env) (W H : Nat) (hb : env.bitmap = ⟨(W : Int), (H : Int)⟩)
    (hrow : W * 24 + 31 ≤ 2147483647) (hsize : 54 + pixelBufferSize W H ≤ 4294967295) :
    (bmpFileHdr env).bfSize = 54 + pixelBufferSize W H := by
  have hd := dwBmpSize_eq env W H hb hrow (by unfold pixelBufferSize at hsize; omega)
  unfold pixelBufferSize at hsize ⊢
  simp only [bmpFileHdr, dwSizeofDIB, hd, sizeof_BITMAPFILEHEADER, sizeof_BITMAPINFOHEADER]
  omega

theorem header_reads (env : Env) (rest : List Nat) (hs : (bmpFileHdr env).bfSize ≤ 4294967295) :
    readLE16 ((bmpFileHdr env).bytes ++ (infoHdr env).bytes ++ rest) 0 = 0x4D42 ∧
    readLE32 ((bmpFileHdr env).bytes ++ (infoHdr env).bytes ++ rest) 10 = 54 ∧
    readLE32 ((bmpFileHdr env).bytes ++ (infoHdr env).bytes ++ rest) 2 = (bmpFileHdr env).bfSize ∧
    readLE16 ((bmpFileHdr env).bytes ++ (infoHdr env).bytes ++ rest) 26 = 1 ∧
    readLE16 ((bmpFileHdr env).bytes ++ (infoHdr env).bytes ++ rest) 28 = 24 ∧
    readLE32 ((bmpFileHdr env).bytes ++ (infoHdr env).bytes ++ rest) 30 = 0 := by
  simp only [BITMAPFILEHEADER.bytes, BITMAPINFOHEADER.bytes, List.append_assoc]
  refine ⟨?_, ?_, ?_, ?_, ?_, ?_⟩
  · rw [readLE16_here _ _ (by simp [bmpFileHdr])]; rfl
  · rw [readLE32_skip16 _ _ 8, readLE32_skip32 _ _ 4, readLE32_skip16 _ _ 2,
      readLE32_skip16 _ _ 0, readLE32_here _ _ (by simp [bmpFileHdr, sizeof_BITMAPFILEHEADER,
        sizeof_BITMAPINFOHEADER])]
    rfl
  · rw [readLE32_skip16 _ _ 0, readLE32_here _ _ hs]
  · rw [readLE16_skip16 _ _ 24, readLE16_skip32 _ _ 20, readLE16_skip16 _ _ 18,
      readLE16_skip16 _ _ 16, readLE16_skip32 _ _ 12, readLE16_skip32 _ _ 8,
      readLE16_skip32 _ _ 4, readLE16_skip32 _ _ 0, readLE16_here _ _ (by simp [infoHdr])]
    rfl
  · rw [readLE16_skip16 _ _ 26, readLE16_skip32 _ _ 22, readLE16_skip16 _ _ 20,
      readLE16_skip16 _ _ 18, readLE16_skip32 _ _ 14, readLE16_skip32 _ _ 10,
      readLE16_skip32 _ _ 6, readLE16_skip32 _ _ 2, readLE16_skip16 _ _ 0,
      readLE16_here _ _ (by simp [infoHdr])]
    rfl
  · rw [readLE32_skip16 _ _ 28, readLE32_skip32 _ _ 24, readLE32_skip16 _ _ 22,
      readLE32_skip16 _ _ 20, readLE32_skip32 _ _ 16, readLE32_skip32 _ _ 12,
      readLE32_skip32 _ _ 8, readLE32_skip32 _ _ 4, readLE32_skip16 _ _ 2,
      readLE32_skip16 _ _ 0, readLE32_here _ _ (by simp [infoHdr, BI_RGB])]
    rfl

/-! ## The claims -/

/-- C1, as stated, fails: for the snapshot 89478486 wide and 1 high the file
size `54 + pixelBufferSize 89478486 1 = 268435514` fits the 32-bit `bfSize`
field, but `89478486*24 + 31` leaves the `LONG` range on line 130 and the
stored `bfSize` is 4026531902. -/
theorem bfSize_wrong_on_wide_snapshot :
    (frame 89478486 1 []).bitmap = ⟨89478486, 1⟩ ∧
    54 + pixelBufferSize 89478486 1 = 268435514 ∧
    54 + pixelBufferSize 89478486 1 ≤ 4294967295 ∧
    (bmpFileHdr (frame 89478486 1 [])).bfSize = 4026531902 ∧
    (bmpFileHdr (frame 89478486 1 [])).bfSize ≠ 54 + pixelBufferSize 89478486 1 := by
  decide

/-- C1, amended: for a snapshot of width `W ≥ 1` and height `H ≥ 1` with
`W*24 + 31 ≤ 2^31 - 1` and `54 + pixelBufferSize W H ≤ 2^32 - 1`, the headers
carry `bfType = 0x4D42`, `bfOffBits = 54` (14 + 40),
`bfSize = 54 + pixelBufferSize W H`, `biPlanes = 1`, `biBitCount = 24` and
`biCompression = 0`; and when the file is created and both header writes
succeed, reading these fields back from the written bytes gives the same
values. -/
theorem headers_carry_fixed_fields (env : Env) (W H : Nat) (mWidth mHeight idx : Int)
    (hb : env.bitmap = ⟨(W : Int), (H : Int)⟩) (hW : 1 ≤ W) (hH : 1 ≤ H)
    (hrow : W * 24 + 31 ≤ 2147483647) (hsize : 54 + pixelBufferSize W H ≤ 4294967295) :
    ((bmpFileHdr env).bfType = 0x4D42 ∧
      (bmpFileHdr env).bfOffBits = 54 ∧
      sizeof_BITMAPFILEHEADER + sizeof_BITMAPINFOHEADER = 54 ∧
      (bmpFileHdr env).bfSize = 54 + pixelBufferSize W H ∧
      (infoHdr env).biPlanes = 1 ∧ (infoHdr env).biBitCount = 24 ∧
      (infoHdr env).biCompression = 0) ∧
    (env.createOk = true → env.write1Ok = true → env.write2Ok = true →
      ∃ f, SaveCapturedBitmap env mWidth mHeight idx = some f ∧
        readLE16 f.content 0 = 0x4D42 ∧ readLE32 f.content 10 = 54 ∧
        readLE32 f.content 2 = 54 + pixelBufferSize W H ∧
        readLE16 f.content 26 = 1 ∧ readLE16 f.content 28 = 24 ∧
        readLE32 f.content 30 = 0) := by
  have hs := bfSize_eq env W H hb hrow hsize
  refine ⟨⟨rfl, rfl, rfl, hs, rfl, rfl, rfl⟩, ?_⟩
  intro hc h1 h2
  refine ⟨_, content_two_headers env mWidth mHeight idx hc h1 h2, ?_⟩
  have hr := header_reads env (WriteFile env.write3Ok (lpBitmap env) (dwBmpSize env))
    (by rw [hs]; exact hsize)
  rw [hs] at hr
  exact hr

/-- Witness of the amended C1 on the red 2 by 2 snapshot. -/
theorem headers_carry_fixed_fields_witness :
    ((bmpFileHdr (frame 2 2 redBits)).bfType = 0x4D42 ∧
      (bmpFileHdr (frame 2 2 redBits)).bfOffBits = 54 ∧
      sizeof_BITMAPFILEHEADER + sizeof_BITMAPINFOHEADER = 54 ∧
      (bmpFileHdr (frame 2 2 redBits)).bfSize = 54 + pixelBufferSize 2 2 ∧
      (infoHdr (frame 2 2 redBits)).biPlanes = 1 ∧ (infoHdr (frame 2 2 redBits)).biBitCount = 24 ∧
      (infoHdr (frame 2 2 redBits)).biCompression = 0) ∧
    ((frame 2 2 redBits).createOk = true → (frame 2 2 redBits).write1Ok = true →
      (frame 2 2 redBits).write2Ok = true →
      ∃ f, SaveCapturedBitmap (frame 2 2 redBits) 2 2 0 = some f ∧
        readLE16 f.content 0 = 0x4D42 ∧ readLE32 f.content 10 = 54 ∧
        readLE32 f.content 2 = 54 + pixelBufferSize 2 2 ∧
        readLE16 f.content 26 = 1 ∧ readLE16 f.content 28 = 24 ∧
        readLE32 f.content 30 = 0) :=
  headers_carry_fixed_fields (frame 2 2 redBits) 2 2 2 2 0 rfl (by decide) (by decide)
    (by decide) (by decide)

/-- C2, as stated, fails: for the positive dimensions 65536 by 65536 the
32-bit product wraps and `dwBmpSize` is 0, while
`padded_row_bytes 65536 * 65536` is 12884901888; and for the positive
dimensions 89478486 by 1 the sum `W*24 + 31` leaves the `LONG` range and
`dwBmpSize` is 4026531848, while `padded_row_bytes 89478486 * 1` is
268435460. -/
theorem dwBmpSize_wraps_at_65536 :
    ((frame 65536 65536 []).bitmap = ⟨65536, 65536⟩ ∧
      dwBmpSize (frame 65536 65536 []) = 0 ∧
      padded_row_bytes 65536 * 65536 = 12884901888 ∧
      dwBmpSize (frame 65536 65536 []) ≠ padded_row_bytes 65536 * 65536) ∧
    ((frame 89478486 1 []).bitmap = ⟨89478486, 1⟩ ∧
      dwBmpSize (frame 89478486 1 []) = 4026531848 ∧
      padded_row_bytes 89478486 * 1 = 268435460 ∧
      dwBmpSize (frame 89478486 1 []) ≠ padded_row_bytes 89478486 * 1) := by
  decide

/-- C2, amended: for positive `W` and `H` whose sizes fit the 32-bit
arithmetic (`W*24 + 31 ≤ 2^31 - 1` and `padded_row_bytes W * H ≤ 2^32 - 1`),
the size `dwBmpSize` that is computed, the length of the allocated buffer and
the number of bytes of the pixel write all equal `padded_row_bytes W * H`,
where `padded_row_bytes W = (W*24 + 31)/32 * 4`. -/
theorem dwBmpSize_eq_padded_rows (env : Env) (W H : Nat)
    (hb : env.bitmap = ⟨(W : Int), (H : Int)⟩) (hW : 1 ≤ W) (hH : 1 ≤ H)
    (hrow : W * 24 + 31 ≤ 2147483647) (hsize : padded_row_bytes W * H ≤ 4294967295) :
    padded_row_bytes W = (W * 24 + 31) / 32 * 4 ∧
    pixelBufferSize W H = padded_row_bytes W * H ∧
    dwBmpSize env = padded_row_bytes W * H ∧
    (lpBitmap env).length = padded_row_bytes W * H ∧
    (WriteFile true (lpBitmap env) (dwBmpSize env)).length = padded_row_bytes W * H := by
  have hd := dwBmpSize_eq env W H hb hrow hsize
  refine ⟨rfl, rfl, hd, ?_, ?_⟩
  · rw [lpBitmap_length, hd]
  · simp [WriteFile, lpBitmap_length, hd]

/-- Witness of the amended C2 on the default 1920 by 1080 capture. -/
theorem dwBmpSize_eq_padded_rows_witness :
    padded_row_bytes 1920 = (1920 * 24 + 31) / 32 * 4 ∧
    pixelBufferSize 1920 1080 = padded_row_bytes 1920 * 1080 ∧
    dwBmpSize (frame 1920 1080 []) = padded_row_bytes 1920 * 1080 ∧
    (lpBitmap (frame 1920 1080 [])).length = padded_row_bytes 1920 * 1080 ∧
    (WriteFile true (lpBitmap (frame 1920 1080 [])) (dwBmpSize (frame 1920 1080 []))).length =
      padded_row_bytes 1920 * 1080 :=
  dwBmpSize_eq_padded_rows (frame 1920 1080 []) 1920 1080 rfl (by decide) (by decide)
    (by decide) (by decide)

theorem digitChar_eq_ofNat {d : Nat} (h : d < 10) : Nat.digitChar d = Char.ofNat (48 + d) := by
  interval_cases d <;> rfl

theorem to_string_eq_decimal (v : Int) : to_string v = decimal v := by
  apply String.ext
  have hmap : ∀ n : Nat, Nat.toDigits 10 n =
      (decDigits n).map fun d => Char.ofNat (48 + d) := by
    intro n
    rw [toDigits_eq]
    exact List.map_congr_left fun d hd => digitChar_eq_ofNat (decDigits_lt n d hd)
  rw [to_string, toString_int_data]
  unfold decimal
  by_cases hv : v < 0
  · simp only [hv, if_true, hmap, List.singleton_append]
  · have : v.toNat = v.natAbs := by omega
    simp only [hv, if_false, hmap, this, List.nil_append]

theorem str_filename_data (env : Env) (idx : Int) :
    (str_filename env idx).data =
      (toString idx).data ++ '+' ::
        ((to_string env.mousePt.x ++ "_" ++ to_string env.mousePt.y ++ "_" ++
          to_string env.tnow ++ ".bmp").data) := by
  simp [str_filename, to_string, String.data_append]

theorem str_filename_injective (e1 e2 : Env) (i j : Int)
    (h : str_filename e1 i = str_filename e2 j) : i = j := by
  have hd : (str_filename e1 i).data = (str_filename e2 j).data := by rw [h]
  rw [str_filename_data, str_filename_data] at hd
  exact toString_int_injective
    (String.ext (append_sep_inj _ _ _ _ (toString_int_no_plus i) (toString_int_no_plus j) hd))

/-- C3: the name of the file is `decimal idx ++ "+" ++ decimal x ++ "_" ++
decimal y ++ "_" ++ decimal t ++ ".bmp"` for every frame index, cursor
position and timestamp, and it is the name of the file created; index 5,
cursor (100, 200) and timestamp 1234567890123 give
`5+100_200_1234567890123.bmp`. -/
theorem filename_is_decimal_fields (env : Env) (mWidth mHeight idx : Int) (W H : Int)
    (bits : List Nat) :
    str_filename env idx =
      decimal idx ++ "+" ++ decimal env.mousePt.x ++ "_" ++ decimal env.mousePt.y ++ "_" ++
        decimal env.tnow ++ ".bmp" ∧
    (SaveCapturedBitmap env mWidth mHeight idx).map File.name =
      (if env.createOk then some (str_filename env idx) else none) ∧
    (frame W H bits).mousePt = ⟨100, 200⟩ ∧ (frame W H bits).tnow = 1234567890123 ∧
    (SaveCapturedBitmap (frame W H bits) mWidth mHeight 5).map File.name =
      some "5+100_200_1234567890123.bmp" := by
  refine ⟨?_, ?_, rfl, rfl, ?_⟩
  · simp only [str_filename, to_string_eq_decimal]
  · unfold SaveCapturedBitmap; split <;> rfl
  · have hname : to_string 5 ++ "+" ++ to_string 100 ++ "_" ++ to_string 200 ++ "_" ++
        to_string 1234567890123 ++ ".bmp" = "5+100_200_1234567890123.bmp" := by decide
    unfold SaveCapturedBitmap
    rw [if_pos (show (frame W H bits).createOk = true from rfl)]
    exact congrArg some hname

/-- C6: two different frame indices never give the same filename, whatever
the cursor positions and timestamps (negative ones included) of the two
calls; hence the files two calls create have different names, and the names
the thirty iterations of the driver loop target are pairwise distinct. -/
theorem filename_keyed_by_index (e1 e2 : Env) (i j : Int) (hij : i ≠ j) :
    str_filename e1 i ≠ str_filename e2 j ∧
    (∀ (w1 h1 w2 h2 : Int) (f1 f2 : File), SaveCapturedBitmap e1 w1 h1 i = some f1 →
      SaveCapturedBitmap e2 w2 h2 j = some f2 → f1.name ≠ f2.name) ∧
    (∀ envs : Int → Env, (main_indices.map fun k => str_filename (envs k) k).Nodup) := by
  have hne : str_filename e1 i ≠ str_filename e2 j :=
    fun h => hij (str_filename_injective e1 e2 i j h)
  refine ⟨hne, ?_, ?_⟩
  · intro w1 h1 w2 h2 f1 f2 hf1 hf2
    unfold SaveCapturedBitmap at hf1 hf2
    split at hf1 <;> split at hf2 <;> simp at hf1 hf2
    rw [← hf1, ← hf2]
    exact hne
  · intro envs
    refine List.Nodup.map_on ?_ (by decide)
    intro a _ b _ hab
    exact str_filename_injective _ _ a b hab

/-- Witness of C6: index 0 against index 1, the second call with a negative
cursor position. -/
theorem filename_keyed_by_index_witness :
    (0 : Int) ≠ 1 ∧
    str_filename (frame 2 2 redBits) 0 ≠
      str_filename { frame 2 2 redBits with mousePt := ⟨-100, -200⟩ } 1 :=
  ⟨by decide,
    (filename_keyed_by_index (frame 2 2 redBits)
      { frame 2 2 redBits with mousePt := ⟨-100, -200⟩ } 0 1 (by decide)).1⟩

theorem content_indep_of_metadata (env : Env) (p : POINT) (t : Int)
    (mWidth mHeight idx mWidth2 mHeight2 idx2 : Int) :
    (SaveCapturedBitmap { env with mousePt := p, tnow := t } mWidth2 mHeight2 idx2).map
        File.content =
      (SaveCapturedBitmap env mWidth mHeight idx).map File.content := by
  unfold SaveCapturedBitmap
  split <;> rfl

theorem checkedLONG_of_range {x : Int} (h1 : -2147483648 ≤ x) (h2 : x ≤ 2147483647) :
    checkedLONG x = some x := by
  unfold checkedLONG; rw [if_pos ⟨h1, h2⟩]

/-- C4, as stated, fails: for a snapshot 1 pixel wide and 1073741823 rows
high every write succeeds, 4294967346 bytes are written, and the stored
`bfSize` is 50. -/
theorem bfSize_wraps_on_tall_snapshot :
    ((frame 1 1073741823 []).createOk = true ∧ (frame 1 1073741823 []).write1Ok = true ∧
      (frame 1 1073741823 []).write2Ok = true ∧ (frame 1 1073741823 []).write3Ok = true) ∧
    dwBmpSize (frame 1 1073741823 []) = 4294967292 ∧
    (SaveCapturedBitmap (frame 1 1073741823 []) 1 1073741823 0).map
        (fun f => f.content.length) = some 4294967346 ∧
    (bmpFileHdr (frame 1 1073741823 [])).bfSize = 50 := by
  have hd : dwBmpSize (frame 1 1073741823 []) = 4294967292 := by decide
  refine ⟨⟨rfl, rfl, rfl, rfl⟩, hd, ?_, by decide⟩
  rw [content_eq _ _ _ _ rfl rfl rfl rfl]
  simp [fileHdr_bytes_length, infoHdr_bytes_length, lpBitmap_length, hd]

/-- C4, amended: when the file is created and the three writes succeed, the
content of the file is the 14 bytes of the file header, then the 40 bytes of
the info header, then the `dwBmpSize` bytes of the pixel buffer; the pixel
data begins at byte offset `bfOffBits`; and the number of bytes written
equals the stored `bfSize` exactly when `dwBmpSize + 54` fits in 32 bits. -/
theorem written_bytes_in_order (env : Env) (mWidth mHeight idx : Int)
    (hc : env.createOk = true) (h1 : env.write1Ok = true) (h2 : env.write2Ok = true)
    (h3 : env.write3Ok = true) :
    ∃ f, SaveCapturedBitmap env mWidth mHeight idx = some f ∧
      f.content = (bmpFileHdr env).bytes ++ (infoHdr env).bytes ++ lpBitmap env ∧
      (bmpFileHdr env).bytes.length = 14 ∧ (infoHdr env).bytes.length = 40 ∧
      (lpBitmap env).length = dwBmpSize env ∧
      f.content.length = 14 + 40 + dwBmpSize env ∧
      f.content.drop (bmpFileHdr env).bfOffBits = lpBitmap env ∧
      (f.content.length = (bmpFileHdr env).bfSize ↔ dwBmpSize env + 54 ≤ 4294967295) := by
  refine ⟨_, content_eq env mWidth mHeight idx hc h1 h2 h3, rfl, fileHdr_bytes_length _,
    infoHdr_bytes_length _, lpBitmap_length _, ?_, ?_, ?_⟩
  · simp only [List.length_append, fileHdr_bytes_length, infoHdr_bytes_length, lpBitmap_length]
  · have hoff : (bmpFileHdr env).bfOffBits =
        ((bmpFileHdr env).bytes ++ (infoHdr env).bytes).length := by
      rw [List.length_append, fileHdr_bytes_length, infoHdr_bytes_length]; rfl
    show List.drop _ ((bmpFileHdr env).bytes ++ (infoHdr env).bytes ++ lpBitmap env) = _
    rw [hoff, List.drop_left]
  · show (((bmpFileHdr env).bytes ++ (infoHdr env).bytes ++ lpBitmap env).length =
        (dwBmpSize env + 14 + 40) % 4294967296) ↔ _
    simp only [List.length_append, fileHdr_bytes_length, infoHdr_bytes_length, lpBitmap_length]
    omega

/-- Witness of the amended C4 on the red 2 by 2 snapshot. -/
theorem written_bytes_in_order_witness :
    ∃ f, SaveCapturedBitmap (frame 2 2 redBits) 2 2 0 = some f ∧
      f.content = (bmpFileHdr (frame 2 2 redBits)).bytes ++ (infoHdr (frame 2 2 redBits)).bytes ++
        lpBitmap (frame 2 2 redBits) ∧
      (bmpFileHdr (frame 2 2 redBits)).bytes.length = 14 ∧
      (infoHdr (frame 2 2 redBits)).bytes.length = 40 ∧
      (lpBitmap (frame 2 2 redBits)).length = dwBmpSize (frame 2 2 redBits) ∧
      f.content.length = 14 + 40 + dwBmpSize (frame 2 2 redBits) ∧
      f.content.drop (bmpFileHdr (frame 2 2 redBits)).bfOffBits = lpBitmap (frame 2 2 redBits) ∧
      (f.content.length = (bmpFileHdr (frame 2 2 redBits)).bfSize ↔
        dwBmpSize (frame 2 2 redBits) + 54 ≤ 4294967295) :=
  written_bytes_in_order (frame 2 2 redBits) 2 2 0 rfl rfl rfl rfl

/-- C5: the code never assigns `bfReserved1` and `bfReserved2`; the header it
writes keeps whatever the stack slot of `bmpFileHdr` held.  With the debug
fill pattern both fields, and bytes 6 to 9 of the file, are `0xCCCC`, not 0. -/
theorem reserved_fields_keep_stack_contents (env : Env) :
    (bmpFileHdr env).bfReserved1 = env.bmpFileHdr0.bfReserved1 ∧
    (bmpFileHdr env).bfReserved2 = env.bmpFileHdr0.bfReserved2 ∧
    (bmpFileHdr debugFillFrame).bfReserved1 = 0xCCCC ∧
    (bmpFileHdr debugFillFrame).bfReserved2 = 0xCCCC ∧
    (SaveCapturedBitmap debugFillFrame 2 2 0).map
        (fun f => (readLE16 f.content 6, readLE16 f.content 8)) = some (0xCCCC, 0xCCCC) := by
  refine ⟨rfl, rfl, rfl, rfl, by decide⟩

/-- C7: two calls on the same red 2 by 2 snapshot (same geometry, same
extracted bytes) that differ in cursor, timestamp and frame index, and in the
leftover contents of the stack slot of `bmpFileHdr`: the info-header bytes
and the pixel bytes agree, the file-header bytes and the file contents do
not. -/
theorem header_bytes_differ_between_calls :
    (frame 2 2 redBits).bitmap = laterFrame.bitmap ∧
    (frame 2 2 redBits).dibits = laterFrame.dibits ∧
    (infoHdr (frame 2 2 redBits)).bytes = (infoHdr laterFrame).bytes ∧
    lpBitmap (frame 2 2 redBits) = lpBitmap laterFrame ∧
    (bmpFileHdr (frame 2 2 redBits)).bytes ≠ (bmpFileHdr laterFrame).bytes ∧
    (SaveCapturedBitmap (frame 2 2 redBits) 2 2 0).map File.content ≠
      (SaveCapturedBitmap laterFrame 2 2 1).map File.content := by
  decide

/-- C8, as stated, fails: the snapshot is 2 by 2, the caller passes 1920 by
1080, and the 70-byte bitmap file is produced all the same. -/
theorem mismatched_dimensions_still_saved :
    (frame 2 2 redBits).bitmap.bmWidth ≠ 1920 ∧
    (frame 2 2 redBits).bitmap.bmHeight ≠ 1080 ∧
    (SaveCapturedBitmap (frame 2 2 redBits) 1920 1080 0).isSome = true ∧
    (SaveCapturedBitmap (frame 2 2 redBits) 1920 1080 0).map (fun f => f.content.length) =
      some 70 := by
  decide

/-- C8, amended: `SaveCapturedBitmap` never reads `mWidth` and `mHeight`: the
file it leaves is the same for any caller-supplied dimensions, the header
takes its width and height from the geometry queried from the handle, and a
file is produced exactly when the file can be created, whether or not the
dimensions match. -/
theorem caller_dimensions_are_ignored (env : Env) (mWidth mHeight mWidth2 mHeight2 idx : Int) :
    SaveCapturedBitmap env mWidth mHeight idx = SaveCapturedBitmap env mWidth2 mHeight2 idx ∧
    (infoHdr env).biWidth = env.bitmap.bmWidth ∧
    (infoHdr env).biHeight = env.bitmap.bmHeight ∧
    (SaveCapturedBitmap env mWidth mHeight idx).isSome = env.createOk := by
  refine ⟨rfl, rfl, rfl, ?_⟩
  unfold SaveCapturedBitmap
  cases env.createOk <;> rfl

/-- C9: for every width `W ≥ 1`, `padded_row_bytes W = (W*24 + 31)/32 * 4` is
a multiple of 4, is at least `3*W`, exceeds it by at most 3, and is the least
such multiple; width 1920 gives 5760 and width 1921 gives 5764; and it is the
row size line 130 computes whenever `W*24 + 31` fits a `LONG`. -/
theorem row_padding_least_multiple_of_four (W : Nat) (hW : 1 ≤ W) :
    padded_row_bytes W = (W * 24 + 31) / 32 * 4 ∧
    4 ∣ padded_row_bytes W ∧
    3 * W ≤ padded_row_bytes W ∧
    padded_row_bytes W - 3 * W ≤ 3 ∧
    (∀ m : Nat, 4 ∣ m → 3 * W ≤ m → padded_row_bytes W ≤ m) ∧
    padded_row_bytes 1920 = 5760 ∧ padded_row_bytes 1921 = 5764 ∧
    (∀ env : Env, env.bitmap.bmWidth = (W : Int) → W * 24 + 31 ≤ 2147483647 →
      rowBytes env = (padded_row_bytes W : Nat)) := by
  refine ⟨rfl, ?_, ?_, ?_, ?_, by decide, by decide, ?_⟩
  · exact Dvd.intro_left _ rfl
  · unfold padded_row_bytes; omega
  · unfold padded_row_bytes; omega
  · intro m hm h3
    obtain ⟨k, rfl⟩ := hm
    unfold padded_row_bytes; omega
  · intro env hb h
    exact rowBytes_eq env W hb h

/-- Witness of C9 at width 1921. -/
theorem row_padding_least_multiple_of_four_witness :
    padded_row_bytes 1921 = (1921 * 24 + 31) / 32 * 4 ∧
    4 ∣ padded_row_bytes 1921 ∧
    3 * 1921 ≤ padded_row_bytes 1921 ∧
    padded_row_bytes 1921 - 3 * 1921 ≤ 3 ∧
    (∀ m : Nat, 4 ∣ m → 3 * 1921 ≤ m → padded_row_bytes 1921 ≤ m) ∧
    padded_row_bytes 1920 = 5760 ∧ padded_row_bytes 1921 = 5764 ∧
    (∀ env : Env, env.bitmap.bmWidth = ((1921 : Nat) : Int) → 1921 * 24 + 31 ≤ 2147483647 →
      rowBytes env = (padded_row_bytes 1921 : Nat)) :=
  row_padding_least_multiple_of_four 1921 (by decide)

theorem size_exact (env : Env) (W H : Nat)
    (hb : env.bitmap = ⟨(W : Int), (H : Int)⟩)
    (hrow : W * 24 + 31 ≤ 2147483647) (hsize : (W * 24 + 31) / 32 * 4 * H ≤ 2147483647) :
    dwBmpSize_checked env = some ((W * 24 + 31) / 32 * 4 * H) ∧
    dwBmpSize env = (W * 24 + 31) / 32 * 4 * H ∧
    dwBmpSize env + sizeof_BITMAPFILEHEADER + sizeof_BITMAPINFOHEADER ≤ 4294967295 ∧
    (bmpFileHdr env).bfSize = (W * 24 + 31) / 32 * 4 * H + 54 := by
  have hd : dwBmpSize env = (W * 24 + 31) / 32 * 4 * H :=
    dwBmpSize_eq env W H hb hrow (by unfold padded_row_bytes; omega)
  have hw : env.bitmap.bmWidth = (W : Int) := by rw [hb]
  have hh : env.bitmap.bmHeight = (H : Int) := by rw [hb]
  have hdiv : Int.tdiv ((W : Int) * 24 + 31) 32 = ((W : Int) * 24 + 31) / 32 :=
    Int.tdiv_eq_ediv (by omega) (by omega)
  have hprod : (((W : Int) * 24 + 31) / 32 * 4 * (H : Int)) =
      (((W * 24 + 31) / 32 * 4 * H : Nat) : Int) := by push_cast; rfl
  refine ⟨?_, hd, ?_, ?_⟩
  · unfold dwBmpSize_checked
    simp only [infoHdr, hw, hh]
    push_cast
    rw [checkedLONG_of_range (x := (W : Int) * 24) (by omega) (by omega), Option.some_bind,
      checkedLONG_of_range (x := (W : Int) * 24 + 31) (by omega) (by omega), Option.some_bind,
      hdiv,
      checkedLONG_of_range (x := ((W : Int) * 24 + 31) / 32) (by omega) (by omega),
      Option.some_bind,
      checkedLONG_of_range (x := ((W : Int) * 24 + 31) / 32 * 4) (by omega) (by omega),
      Option.some_bind, hprod,
      checkedLONG_of_range (by omega) (by omega), Option.some_bind,
      toDWORD_natCast (by omega)]
  · rw [hd]; simp only [sizeof_BITMAPFILEHEADER, sizeof_BITMAPINFOHEADER]; omega
  · simp only [bmpFileHdr, dwSizeofDIB, hd, sizeof_BITMAPFILEHEADER, sizeof_BITMAPINFOHEADER]
    omega

/-- C10: for `W ≥ 1` and `H ≥ 1` with `W*24 + 31 ≤ 2^31 - 1` and
`(W*24 + 31)/32 * 4 * H ≤ 2^31 - 1`, no signed 32-bit intermediate result of
line 130 overflows, `dwBmpSize` is the exact value `(W*24 + 31)/32 * 4 * H`,
adding the 54 header bytes does not wrap, and `bfSize` is that value plus 54;
the default 1920 by 1080 capture meets the bound, with
`dwBmpSize = 6220800` and `bfSize = 6220854`. -/
theorem size_arithmetic_exact_within_bound (env : Env) (W H : Nat)
    (hb : env.bitmap = ⟨(W : Int), (H : Int)⟩) (hW : 1 ≤ W) (hH : 1 ≤ H)
    (hrow : W * 24 + 31 ≤ 2147483647) (hsize : (W * 24 + 31) / 32 * 4 * H ≤ 2147483647) :
    dwBmpSize_checked env = some ((W * 24 + 31) / 32 * 4 * H) ∧
    dwBmpSize env = (W * 24 + 31) / 32 * 4 * H ∧
    dwBmpSize env + sizeof_BITMAPFILEHEADER + sizeof_BITMAPINFOHEADER ≤ 4294967295 ∧
    (bmpFileHdr env).bfSize = (W * 24 + 31) / 32 * 4 * H + 54 ∧
    (1920 * 24 + 31 ≤ 2147483647 ∧ (1920 * 24 + 31) / 32 * 4 * 1080 ≤ 2147483647) ∧
    (∀ bits : List Nat,
      dwBmpSize_checked (frame main_width main_height bits) = some 6220800 ∧
      dwBmpSize (frame main_width main_height bits) = 6220800 ∧
      (bmpFileHdr (frame main_width main_height bits)).bfSize = 6220854) := by
  obtain ⟨a, b, c, d⟩ := size_exact env W H hb hrow hsize
  refine ⟨a, b, c, d, by decide, fun bits => ?_⟩
  obtain ⟨a2, b2, _, d2⟩ :=
    size_exact (frame main_width main_height bits) 1920 1080 rfl (by decide) (by decide)
  exact ⟨a2, b2, d2⟩

/-- Witness of C10 on the default 1920 by 1080 capture. -/
theorem size_arithmetic_exact_within_bound_witness :
    dwBmpSize_checked (frame 1920 1080 []) = some ((1920 * 24 + 31) / 32 * 4 * 1080) ∧
    dwBmpSize (frame 1920 1080 []) = (1920 * 24 + 31) / 32 * 4 * 1080 ∧
    dwBmpSize (frame 1920 1080 []) + sizeof_BITMAPFILEHEADER + sizeof_BITMAPINFOHEADER ≤
      4294967295 ∧
    (bmpFileHdr (frame 1920 1080 [])).bfSize = (1920 * 24 + 31) / 32 * 4 * 1080 + 54 ∧
    (1920 * 24 + 31 ≤ 2147483647 ∧ (1920 * 24 + 31) / 32 * 4 * 1080 ≤ 2147483647) ∧
    (∀ bits : List Nat,
      dwBmpSize_checked (frame main_width main_height bits) = some 6220800 ∧
      dwBmpSize (frame main_width main_height bits) = 6220800 ∧
      (bmpFileHdr (frame main_width main_height bits)).bfSize = 6220854) :=
  size_arithmetic_exact_within_bound (frame 1920 1080 []) 1920 1080 rfl (by decide) (by decide)
    (by decide) (by decide)
end CaptureScreenshot
